import Mathlib

/-!
Shallow embedding of the DNS server in `src/main.rs` (levaneza-ggce/dns-server-rust).

Conventions of the embedding:

* A Rust byte buffer `&[u8]` is a `List Nat` whose entries are byte values.
* A Rust `String` is represented by its UTF-8 byte sequence, again a `List Nat`;
  `String::from_utf8_lossy(..).to_string()` becomes `utf8Lossy`, the UTF-8
  re-validation that replaces each maximal invalid subpart by the three bytes of
  U+FFFD, exactly as Rust's standard library does.
* `Option α` mirrors Rust's `Option`.  The recursive name decoder
  `parse_domain_name` is not structurally terminating in Rust (compression
  pointers may loop), so the embedding threads an explicit fuel argument that
  every loop iteration and every recursive pointer chase consumes; the result
  type `Option (Option _)` distinguishes `none` (fuel exhausted: the Rust code
  would still be running at that recursion depth) from `some none` (the Rust
  code returned `None`) and `some (some r)` (the Rust code returned `Some r`).
  A computation of the Rust program diverges exactly when the embedding yields
  `none` for every fuel value.
* The `HashMap<String, [u8; 4]>` record table is an abstract lookup function
  `List Nat → Option (Nat × Nat × Nat × Nat)`.
-/

/-- The UTF-8 encoding of U+FFFD, used by `from_utf8_lossy` for invalid input. -/
def replacementChar : List Nat := [239, 191, 189]

/-- A UTF-8 continuation byte: `0x80 ≤ b ≤ 0xBF`. -/
def isCont (b : Nat) : Prop := 128 ≤ b ∧ b ≤ 191

instance (b : Nat) : Decidable (isCont b) := by unfold isCont; infer_instance

/-- Embedding of `String::from_utf8_lossy(bytes).to_string()`, viewed on UTF-8
byte sequences: valid scalar-value sequences are copied, each maximal invalid
subpart is replaced by U+FFFD (bytes `EF BF BD`), following the validation
ranges of Rust's `core::str::run_utf8_validation`. -/
def utf8Lossy : List Nat → List Nat
  | [] => []
  | b :: rest =>
    if b ≤ 127 then b :: utf8Lossy rest
    else if b ≤ 193 then replacementChar ++ utf8Lossy rest
    else if b ≤ 223 then
      match rest with
      | [] => replacementChar
      | c1 :: r1 =>
        if isCont c1 then b :: c1 :: utf8Lossy r1
        else replacementChar ++ utf8Lossy (c1 :: r1)
    else if b ≤ 239 then
      match rest with
      | [] => replacementChar
      | c1 :: r1 =>
        if (b = 224 ∧ 160 ≤ c1 ∧ c1 ≤ 191) ∨ (225 ≤ b ∧ b ≤ 236 ∧ isCont c1) ∨
            (b = 237 ∧ 128 ≤ c1 ∧ c1 ≤ 159) ∨ (238 ≤ b ∧ isCont c1) then
          match r1 with
          | [] => replacementChar
          | c2 :: r2 =>
            if isCont c2 then b :: c1 :: c2 :: utf8Lossy r2
            else replacementChar ++ utf8Lossy (c2 :: r2)
        else replacementChar ++ utf8Lossy (c1 :: r1)
    else if b ≤ 244 then
      match rest with
      | [] => replacementChar
      | c1 :: r1 =>
        if (b = 240 ∧ 144 ≤ c1 ∧ c1 ≤ 191) ∨ (241 ≤ b ∧ b ≤ 243 ∧ isCont c1) ∨
            (b = 244 ∧ 128 ≤ c1 ∧ c1 ≤ 143) then
          match r1 with
          | [] => replacementChar
          | c2 :: r2 =>
            if isCont c2 then
              match r2 with
              | [] => replacementChar
              | c3 :: r3 =>
                if isCont c3 then b :: c1 :: c2 :: c3 :: utf8Lossy r3
                else replacementChar ++ utf8Lossy (c3 :: r3)
            else replacementChar ++ utf8Lossy (c2 :: r2)
        else replacementChar ++ utf8Lossy (c1 :: r1)
    else replacementChar ++ utf8Lossy rest

/-- `parts.join(".")` on UTF-8 byte sequences: intercalate the dot byte 46. -/
def dotJoin (parts : List (List Nat)) : List Nat := List.intercalate [46] parts

/-- `u16::to_be_bytes`: two big-endian bytes of a 16-bit value. -/
def u16be (x : Nat) : List Nat := [x / 256 % 256, x % 256]

/-- `u32::to_be_bytes`: four big-endian bytes of a 32-bit value. -/
def u32be (x : Nat) : List Nat :=
  [x / 16777216 % 256, x / 65536 % 256, x / 256 % 256, x % 256]

/-- The four bytes of a `[u8; 4]` IPv4 address. -/
def ipBytes : Nat × Nat × Nat × Nat → List Nat
  | (a, b, c, d) => [a, b, c, d]

/-- The `DnsHeader` struct of `src/main.rs`: six 16-bit fields. -/
structure DnsHeader where
  id : Nat
  flags : Nat
  question_count : Nat
  answer_count : Nat
  authority_count : Nat
  additional_count : Nat
deriving DecidableEq, Repr

/-- `DnsHeader::parse`: requires at least 12 bytes, reads six big-endian
16-bit fields at offsets 0, 2, 4, 6, 8, 10. -/
def DnsHeader.parse (buffer : List Nat) : Option DnsHeader :=
  if buffer.length < 12 then none
  else
    some ⟨buffer.getD 0 0 * 256 + buffer.getD 1 0,
          buffer.getD 2 0 * 256 + buffer.getD 3 0,
          buffer.getD 4 0 * 256 + buffer.getD 5 0,
          buffer.getD 6 0 * 256 + buffer.getD 7 0,
          buffer.getD 8 0 * 256 + buffer.getD 9 0,
          buffer.getD 10 0 * 256 + buffer.getD 11 0⟩

/-- `DnsHeader::to_bytes`: the six fields, big-endian, in declaration order. -/
def DnsHeader.toBytes (h : DnsHeader) : List Nat :=
  u16be h.id ++ u16be h.flags ++ u16be h.question_count ++ u16be h.answer_count ++
    u16be h.authority_count ++ u16be h.additional_count

/-- The `DnsQuestion` struct of `src/main.rs`. -/
structure DnsQuestion where
  name : List Nat
  qtype : Nat
  qclass : Nat
deriving DecidableEq, Repr

/-- `parse_domain_name` of `src/main.rs`.  `parts` is the accumulator vector of
the Rust loop (callers start it at `[]`), `pos` the cursor.  Each loop
iteration and each recursive pointer chase consumes one unit of fuel; `none`
means the fuel ran out (the Rust code is still recursing at that depth),
`some none` is Rust's `None`, and `some (some (name, pos))` is Rust's
`Some(name)` together with the updated `*offset`. -/
def parse_domain_name (buffer : List Nat) : Nat → Nat → List (List Nat) →
    Option (Option (List Nat × Nat))
  | 0, _, _ => none
  | fuel + 1, pos, parts =>
    if buffer.length ≤ pos then some none
    else if buffer.getD pos 0 = 0 then some (some (dotJoin parts, pos + 1))
    else if buffer.getD pos 0 &&& 192 = 192 then
      if buffer.length ≤ pos + 1 then some none
      else
        match parse_domain_name buffer fuel
            (((buffer.getD pos 0 &&& 63) <<< 8) ||| buffer.getD (pos + 1) 0) [] with
        | none => none
        | some none => some (some (dotJoin parts, pos + 2))
        | some (some (nm, _)) => some (some (dotJoin (parts ++ [nm]), pos + 2))
    else
      if buffer.length < pos + 1 + buffer.getD pos 0 then some none
      else
        parse_domain_name buffer fuel (pos + 1 + buffer.getD pos 0)
          (parts ++ [utf8Lossy ((buffer.drop (pos + 1)).take (buffer.getD pos 0))])

/-- `encode_domain_name` of `src/main.rs`: split the name on `'.'`, emit
`len as u8` followed by the label bytes for each non-empty part, then a null
terminator. -/
def encode_domain_name (name : List Nat) : List Nat :=
  ((name.splitOn 46).foldl
    (fun bytes part => if part.isEmpty then bytes else bytes ++ (part.length % 256 :: part))
    []) ++ [0]

/-- `parse_question` of `src/main.rs`: decode the name, then read `qtype` and
`qclass` as big-endian 16-bit fields, advancing the offset by 4. -/
def parse_question (buffer : List Nat) (fuel offset : Nat) :
    Option (Option (DnsQuestion × Nat)) :=
  match parse_domain_name buffer fuel offset [] with
  | none => none
  | some none => some none
  | some (some (name, off)) =>
    if buffer.length < off + 4 then some none
    else
      some (some (⟨name,
        buffer.getD off 0 * 256 + buffer.getD (off + 1) 0,
        buffer.getD (off + 2) 0 * 256 + buffer.getD (off + 3) 0⟩, off + 4))

/-- `create_response` of `src/main.rs`.  The `_query_len` argument is the
received datagram size, which the Rust function accepts and never uses. -/
def create_response (query_buffer : List Nat) (fuel : Nat) (_query_len : Nat)
    (records : List Nat → Option (Nat × Nat × Nat × Nat)) : Option (Option (List Nat)) :=
  match DnsHeader.parse query_buffer with
  | none => some none
  | some header =>
    match parse_question query_buffer fuel 12 with
    | none => none
    | some none => some none
    | some (some (question, _)) =>
      if question.qtype ≠ 1 then some none
      else
        match records question.name with
        | none =>
          some (some ((DnsHeader.mk header.id 33155 1 0 0 0).toBytes ++
            encode_domain_name question.name ++ u16be question.qtype ++ u16be question.qclass))
        | some ip =>
          some (some ((DnsHeader.mk header.id 33152 1 1 0 0).toBytes ++
            encode_domain_name question.name ++ u16be question.qtype ++ u16be question.qclass ++
            [192, 12] ++ u16be 1 ++ u16be 1 ++ u32be 300 ++ u16be 4 ++ ipBytes ip))

/-- The name with empty dot-separated segments removed (the spec's phrase in
the round-trip claim): rejoin the non-empty parts of the split with dots. -/
def removeEmptySegments (name : List Nat) : List Nat :=
  dotJoin ((name.splitOn 46).filter (fun part => !part.isEmpty))

/-- The wire bytes of a list of labels: for each label its length byte
(truncated to `u8`, as `encode_domain_name` does) followed by its bytes. -/
def partsBytes (ps : List (List Nat)) : List Nat :=
  (ps.map (fun p => p.length % 256 :: p)).flatten

example : encode_domain_name [97, 98, 46, 99] = [2, 97, 98, 1, 99, 0] := by decide

example : parse_domain_name [2, 97, 98, 1, 99, 0] 5 0 [] =
    some (some ([97, 98, 46, 99], 6)) := by decide

example : parse_domain_name [192, 0] 5 0 [] = none := by decide

/-! ### Helper lemmas -/

theorem utf8Lossy_ascii : ∀ l : List Nat, (∀ b ∈ l, b ≤ 127) → utf8Lossy l = l := by
  intro l
  induction l with
  | nil => intro _; rfl
  | cons b rest ih =>
    intro h
    have hb : b ≤ 127 := h b (List.mem_cons_self b rest)
    have hstep : utf8Lossy (b :: rest) = b :: utf8Lossy rest := by
      rw [utf8Lossy.eq_def]
      simp [hb]
    rw [hstep, ih (fun x hx => h x (List.mem_cons_of_mem b hx))]

set_option maxRecDepth 4000 in
theorem and192_ne : ∀ L < 192, L &&& 192 ≠ 192 := by decide

theorem mem_intersperse_of_mem {sep : List Nat} :
    ∀ {ls : List (List Nat)} {x : List Nat}, x ∈ ls → x ∈ ls.intersperse sep := by
  intro ls
  induction ls with
  | nil => intro x hx; exact absurd hx (List.not_mem_nil x)
  | cons a t ih =>
    intro x hx
    cases t with
    | nil => simpa using hx
    | cons b t2 =>
      rcases List.mem_cons.mp hx with rfl | hx
      · simp [List.intersperse_cons_cons]
      · simp only [List.intersperse_cons_cons]
        exact List.mem_cons_of_mem _ (List.mem_cons_of_mem sep (ih hx))

theorem mem_of_mem_splitOn {l part : List Nat} {b : Nat}
    (hp : part ∈ l.splitOn 46) (hb : b ∈ part) : b ∈ l := by
  have hx : part ∈ (l.splitOn 46).intersperse [46] := mem_intersperse_of_mem hp
  have hmem : b ∈ [46].intercalate (l.splitOn 46) := by
    rw [List.intercalate]
    exact List.mem_flatten.mpr ⟨part, hx, hb⟩
  rwa [List.intercalate_splitOn] at hmem

theorem encode_foldl (l : List (List Nat)) :
    ∀ acc : List Nat,
      l.foldl
        (fun bytes part => if part.isEmpty then bytes else bytes ++ (part.length % 256 :: part))
        acc
      = acc ++ partsBytes (l.filter (fun p => !p.isEmpty)) := by
  induction l with
  | nil => intro acc; simp [partsBytes]
  | cons p t ih =>
    intro acc
    rw [List.foldl_cons, ih]
    cases p with
    | nil => simp [List.filter_cons, partsBytes]
    | cons x xs =>
      simp [List.filter_cons, List.isEmpty_cons, partsBytes, List.append_assoc]

theorem encode_domain_name_eq (name : List Nat) :
    encode_domain_name name =
      partsBytes ((name.splitOn 46).filter (fun p => !p.isEmpty)) ++ [0] := by
  rw [encode_domain_name, encode_foldl, List.nil_append]

theorem parse_partsBytes :
    ∀ (ps : List (List Nat)) (fuel : Nat) (pre : List Nat) (acc : List (List Nat)),
      (∀ p ∈ ps, p ≠ [] ∧ p.length < 192 ∧ ∀ b ∈ p, b ≤ 127) →
      ps.length < fuel →
      parse_domain_name (pre ++ partsBytes ps ++ [0]) fuel pre.length acc =
        some (some (dotJoin (acc ++ ps), pre.length + (partsBytes ps).length + 1)) := by
  intro ps
  induction ps with
  | nil =>
    intro fuel pre acc _ hfuel
    obtain ⟨f, rfl⟩ : ∃ f, fuel = f + 1 := ⟨fuel - 1, by omega⟩
    have hbuf : pre ++ partsBytes [] ++ [0] = pre ++ [0] := by simp [partsBytes]
    rw [hbuf, parse_domain_name]
    have h1 : ¬((pre ++ [0]).length ≤ pre.length) := by simp
    have h2 : (pre ++ [0]).getD pre.length 0 = 0 := by
      rw [List.getD_append_right _ _ _ _ (Nat.le_refl _)]
      simp
    rw [if_neg h1, h2, if_pos rfl]
    simp [partsBytes]
  | cons p t ih =>
    intro fuel pre acc hps hfuel
    obtain ⟨f, rfl⟩ : ∃ f, fuel = f + 1 := ⟨fuel - 1, by omega⟩
    obtain ⟨hpne, hplt, hpascii⟩ := hps p (List.mem_cons_self p t)
    have hL : p.length % 256 = p.length := Nat.mod_eq_of_lt (by omega)
    have hbuf : pre ++ partsBytes (p :: t) ++ [0]
        = (pre ++ p.length % 256 :: p) ++ (partsBytes t ++ [0]) := by
      simp [partsBytes]
    have hlen : ((pre ++ p.length % 256 :: p) ++ (partsBytes t ++ [0])).length
        = pre.length + 1 + p.length + (partsBytes t).length + 1 := by
      simp
      omega
    rw [hbuf, parse_domain_name]
    have h1 : ¬(((pre ++ p.length % 256 :: p) ++ (partsBytes t ++ [0])).length ≤ pre.length) := by
      rw [hlen]; omega
    have hget : ((pre ++ p.length % 256 :: p) ++ (partsBytes t ++ [0])).getD pre.length 0
        = p.length := by
      rw [List.getD_append _ _ _ _ (by simp)]
      rw [List.getD_append_right _ _ _ _ (Nat.le_refl _)]
      simp [hL]
    have hp0 : ¬(p.length = 0) := by
      cases p with
      | nil => exact absurd rfl hpne
      | cons _ _ => simp
    rw [if_neg h1, hget, if_neg hp0, if_neg (and192_ne p.length hplt)]
    have h5 : ¬(((pre ++ p.length % 256 :: p) ++ (partsBytes t ++ [0])).length
        < pre.length + 1 + p.length) := by
      rw [hlen]; omega
    rw [if_neg h5]
    have hslice : (((pre ++ p.length % 256 :: p) ++ (partsBytes t ++ [0])).drop
        (pre.length + 1)).take p.length = p := by
      have hassoc : (pre ++ p.length % 256 :: p) ++ (partsBytes t ++ [0])
          = (pre ++ [p.length % 256]) ++ (p ++ (partsBytes t ++ [0])) := by simp
      rw [hassoc, List.drop_left' (by simp), List.take_left' rfl]
    rw [hslice, utf8Lossy_ascii p hpascii]
    have hpos : pre.length + 1 + p.length = (pre ++ p.length % 256 :: p).length := by
      simp [hL]
      omega
    rw [hpos]
    have hIH := ih f (pre ++ p.length % 256 :: p) (acc ++ [p])
      (fun q hq => hps q (List.mem_cons_of_mem p hq))
      (by simp at hfuel; omega)
    simp only [List.append_assoc, List.cons_append, List.nil_append, List.singleton_append,
      List.length_append, List.length_cons] at hIH ⊢
    rw [hIH]
    refine congrArg (fun n => some (some (dotJoin (acc ++ p :: t), n))) ?_
    have hpb : partsBytes (p :: t) = (p.length % 256 :: p) ++ partsBytes t := by
      simp [partsBytes]
    rw [hpb]
    simp only [List.length_append, List.length_cons]
    omega

/-! ### Claims -/

/-- C10: the response builder ignores its query-length argument: for every
query buffer, fuel, record table and any two length values, `create_response`
yields identical results (the declared datagram size is never consulted). -/
theorem C10_response_ignores_query_len (buffer : List Nat) (fuel len1 len2 : Nat)
    (records : List Nat → Option (Nat × Nat × Nat × Nat)) :
    create_response buffer fuel len1 records = create_response buffer fuel len2 records := rfl

/-- C8: for every buffer shorter than 12 bytes, header parsing fails
(`none`, no partial header), and the whole response build returns Rust `None`
(`some none`: it terminates and produces nothing); for every buffer of length
at least 12, header parsing succeeds. -/
theorem C8_short_header_fails (buffer : List Nat) :
    (buffer.length < 12 →
      DnsHeader.parse buffer = none ∧
      ∀ fuel qlen records, create_response buffer fuel qlen records = some none) ∧
    (12 ≤ buffer.length → ∃ h, DnsHeader.parse buffer = some h) := by
  constructor
  · intro hlt
    refine ⟨by simp [DnsHeader.parse, hlt], ?_⟩
    intro fuel qlen records
    simp [create_response, DnsHeader.parse, hlt]
  · intro hge
    exact ⟨⟨buffer.getD 0 0 * 256 + buffer.getD 1 0, buffer.getD 2 0 * 256 + buffer.getD 3 0,
      buffer.getD 4 0 * 256 + buffer.getD 5 0, buffer.getD 6 0 * 256 + buffer.getD 7 0,
      buffer.getD 8 0 * 256 + buffer.getD 9 0, buffer.getD 10 0 * 256 + buffer.getD 11 0⟩,
      by rw [DnsHeader.parse, if_neg (Nat.not_lt.mpr hge)]⟩

theorem C8_short_header_fails_witness :
    (DnsHeader.parse (List.replicate 10 0) = none ∧
      create_response (List.replicate 10 0) 3 10 (fun _ => none) = some none) ∧
    ∃ h, DnsHeader.parse (List.replicate 12 0) = some h :=
  ⟨⟨((C8_short_header_fails (List.replicate 10 0)).1 (by decide)).1,
    ((C8_short_header_fails (List.replicate 10 0)).1 (by decide)).2 3 10 (fun _ => none)⟩,
    (C8_short_header_fails (List.replicate 12 0)).2 (by decide)⟩

/-- C6: serializing a header (any 6-tuple of 16-bit fields) produces exactly
12 bytes with the six fields big-endian at offsets 0, 2, 4, 6, 8, 10, and
parsing those bytes back yields the original header. -/
theorem C6_header_roundtrip (h : DnsHeader)
    (h1 : h.id < 65536) (h2 : h.flags < 65536) (h3 : h.question_count < 65536)
    (h4 : h.answer_count < 65536) (h5 : h.authority_count < 65536)
    (h6 : h.additional_count < 65536) :
    h.toBytes.length = 12 ∧
    h.toBytes.take 2 = u16be h.id ∧
    (h.toBytes.drop 2).take 2 = u16be h.flags ∧
    (h.toBytes.drop 4).take 2 = u16be h.question_count ∧
    (h.toBytes.drop 6).take 2 = u16be h.answer_count ∧
    (h.toBytes.drop 8).take 2 = u16be h.authority_count ∧
    (h.toBytes.drop 10).take 2 = u16be h.additional_count ∧
    DnsHeader.parse h.toBytes = some h := by
  obtain ⟨i, fl, qc, ac, uc, dc⟩ := h
  refine ⟨rfl, rfl, rfl, rfl, rfl, rfl, rfl, ?_⟩
  simp only [DnsHeader.toBytes, DnsHeader.parse, u16be] at *
  norm_num [DnsHeader.mk.injEq]
  refine ⟨?_, ?_, ?_, ?_, ?_, ?_⟩ <;> omega

theorem C6_header_roundtrip_witness :
    (DnsHeader.mk 258 33152 1 1 0 0).toBytes.length = 12 ∧
    (DnsHeader.mk 258 33152 1 1 0 0).toBytes.take 2 = u16be 258 ∧
    ((DnsHeader.mk 258 33152 1 1 0 0).toBytes.drop 2).take 2 = u16be 33152 ∧
    ((DnsHeader.mk 258 33152 1 1 0 0).toBytes.drop 4).take 2 = u16be 1 ∧
    ((DnsHeader.mk 258 33152 1 1 0 0).toBytes.drop 6).take 2 = u16be 1 ∧
    ((DnsHeader.mk 258 33152 1 1 0 0).toBytes.drop 8).take 2 = u16be 0 ∧
    ((DnsHeader.mk 258 33152 1 1 0 0).toBytes.drop 10).take 2 = u16be 0 ∧
    DnsHeader.parse (DnsHeader.mk 258 33152 1 1 0 0).toBytes =
      some (DnsHeader.mk 258 33152 1 1 0 0) :=
  C6_header_roundtrip (DnsHeader.mk 258 33152 1 1 0 0)
    (by decide) (by decide) (by decide) (by decide) (by decide) (by decide)

/-- C7: if the header and question of a query parse but the question type is
not 1 (A record), `create_response` returns Rust `None`: no response buffer of
any kind is produced. -/
theorem C7_non_a_query_dropped (buffer : List Nat) (fuel qlen : Nat)
    (records : List Nat → Option (Nat × Nat × Nat × Nat)) (header : DnsHeader)
    (q : DnsQuestion) (rest : Nat)
    (hh : DnsHeader.parse buffer = some header)
    (hq : parse_question buffer fuel 12 = some (some (q, rest)))
    (ht : q.qtype ≠ 1) :
    create_response buffer fuel qlen records = some none := by
  simp [create_response, hh, hq, ht]

theorem C7_non_a_query_dropped_witness :
    create_response (List.replicate 12 0 ++ [1, 97, 0, 0, 2, 0, 1]) 2 19 (fun _ => none)
      = some none :=
  C7_non_a_query_dropped (List.replicate 12 0 ++ [1, 97, 0, 0, 2, 0, 1]) 2 19 (fun _ => none)
    (DnsHeader.mk 0 0 0 0 0 0) (DnsQuestion.mk [97] 2 1) 19
    (by decide) (by decide) (by decide)

/-- C3: a buffer whose name is a compression pointer targeting its own offset
makes the Rust decoder recurse forever: in the embedding, for every fuel bound
the decode of `[0xC0, 0x00]` at offset 0 exhausts its fuel (`none`), i.e. no
recursion depth suffices — the code does not terminate with a malformed-input
failure as the claim requires. -/
theorem C3_self_loop_pointer_diverges :
    ∀ fuel, parse_domain_name [192, 0] fuel 0 [] = none := by
  intro fuel
  induction fuel with
  | zero => rfl
  | succ f ih =>
    rw [parse_domain_name]
    norm_num
    rw [show ((192 &&& 63) <<< 8 : Nat) = 0 from by decide, ih]

/-- C4 (amended): decoding fails with Rust `None` whenever the cursor would
run past the buffer end while reading a length byte, the second byte of a
compression pointer, or the bytes of a label; but a failure of the recursively
decoded pointer target is swallowed: the outer decode then succeeds with the
labels accumulated so far and the cursor advanced 2 bytes past the pointer. -/
theorem C4_bounds_checks (buffer : List Nat) (fuel pos : Nat) (parts : List (List Nat)) :
    (buffer.length ≤ pos → parse_domain_name buffer (fuel + 1) pos parts = some none) ∧
    (pos < buffer.length → buffer.getD pos 0 ≠ 0 → buffer.getD pos 0 &&& 192 = 192 →
      buffer.length ≤ pos + 1 →
      parse_domain_name buffer (fuel + 1) pos parts = some none) ∧
    (pos < buffer.length → buffer.getD pos 0 ≠ 0 → buffer.getD pos 0 &&& 192 ≠ 192 →
      buffer.length < pos + 1 + buffer.getD pos 0 →
      parse_domain_name buffer (fuel + 1) pos parts = some none) ∧
    (pos + 1 < buffer.length → buffer.getD pos 0 &&& 192 = 192 →
      parse_domain_name buffer fuel
          (((buffer.getD pos 0 &&& 63) <<< 8) ||| buffer.getD (pos + 1) 0) [] = some none →
      parse_domain_name buffer (fuel + 1) pos parts = some (some (dotJoin parts, pos + 2))) := by
  refine ⟨?_, ?_, ?_, ?_⟩
  · intro h
    rw [parse_domain_name, if_pos h]
  · intro hpos h0 hc hle
    rw [parse_domain_name, if_neg (Nat.not_le.mpr hpos), if_neg h0, if_pos hc, if_pos hle]
  · intro hpos h0 hc hlt
    rw [parse_domain_name, if_neg (Nat.not_le.mpr hpos), if_neg h0, if_neg hc, if_pos hlt]
  · intro hp1 hc hfail
    have h0 : buffer.getD pos 0 ≠ 0 := by
      intro h; rw [h] at hc; exact absurd hc (by decide)
    rw [parse_domain_name, if_neg (by omega : ¬(buffer.length ≤ pos)), if_neg h0, if_pos hc,
      if_neg (Nat.not_le.mpr hp1), hfail]

theorem C4_bounds_checks_witness :
    parse_domain_name [0] 1 5 [] = some none ∧
    parse_domain_name [192] 1 0 [] = some none ∧
    parse_domain_name [5, 97] 1 0 [] = some none ∧
    parse_domain_name [192, 255] 2 0 [] = some (some ([], 2)) :=
  ⟨(C4_bounds_checks [0] 0 5 []).1 (by decide),
   (C4_bounds_checks [192] 0 0 []).2.1 (by decide) (by decide) (by decide) (by decide),
   (C4_bounds_checks [5, 97] 0 0 []).2.2.1 (by decide) (by decide) (by decide) (by decide),
   (C4_bounds_checks [192, 255] 1 0 []).2.2.2 (by decide) (by decide) (by decide)⟩

/-- C4 counterexample: in the buffer `[0xC0, 0xFF]` the compression pointer at
offset 0 targets offset 255, which is out of bounds, and decoding that target
fails; yet decoding at offset 0 succeeds (with an empty name and cursor 2),
refuting the claim that decoding fails whenever the bytes reached by following
a compression pointer are out of bounds. -/
theorem C4_pointer_failure_swallowed :
    parse_domain_name [192, 255] 1 255 [] = some none ∧
    parse_domain_name [192, 255] 2 0 [] = some (some ([], 2)) := by decide

/-- C9: if the buffer holds a name at offset 12 that decodes to `name`, and at
offset `p` a 2-byte compression pointer whose 14-bit target is 12, then
decoding at `p` succeeds, yields the same `name`, and advances the cursor
exactly 2 bytes past the pointer. -/
theorem C9_pointer_decodes_same (buffer : List Nat) (fuel p off : Nat) (name : List Nat)
    (hp : p + 1 < buffer.length)
    (hc : buffer.getD p 0 &&& 192 = 192)
    (htgt : ((buffer.getD p 0 &&& 63) <<< 8) ||| buffer.getD (p + 1) 0 = 12)
    (h12 : parse_domain_name buffer fuel 12 [] = some (some (name, off))) :
    parse_domain_name buffer (fuel + 1) p [] = some (some (name, p + 2)) := by
  have h0 : buffer.getD p 0 ≠ 0 := by
    intro h; rw [h] at hc; exact absurd hc (by decide)
  rw [parse_domain_name, if_neg (by omega : ¬(buffer.length ≤ p)), if_neg h0, if_pos hc,
    if_neg (Nat.not_le.mpr hp), htgt, h12]
  simp [dotJoin, List.intercalate]

theorem C9_pointer_decodes_same_witness :
    parse_domain_name (List.replicate 12 0 ++ [1, 97, 0, 192, 12]) 3 15 [] =
      some (some ([97], 17)) :=
  C9_pointer_decodes_same (List.replicate 12 0 ++ [1, 97, 0, 192, 12]) 2 15 15 [97]
    (by decide) (by decide) (by decide) (by decide)

/-- C1: when the header parses, the question parses at offset 12 with
qtype = 1, and the lookup table maps the decoded name to an address, the
response is: a 12-byte header with the query's id, flags 0x8180, counts
(1, 1, 0, 0); the re-encoded question name, qtype and qclass; then one answer
record with name exactly `C0 0C`, type 1, class 1, TTL 300, resource-data
length 4 and the looked-up 4 address bytes. -/
theorem C1_hit_response (buffer : List Nat) (fuel qlen : Nat)
    (records : List Nat → Option (Nat × Nat × Nat × Nat)) (header : DnsHeader)
    (q : DnsQuestion) (rest : Nat) (ip : Nat × Nat × Nat × Nat)
    (hh : DnsHeader.parse buffer = some header)
    (hq : parse_question buffer fuel 12 = some (some (q, rest)))
    (ht : q.qtype = 1)
    (hr : records q.name = some ip) :
    create_response buffer fuel qlen records =
      some (some ((DnsHeader.mk header.id 33152 1 1 0 0).toBytes ++
        encode_domain_name q.name ++ u16be q.qtype ++ u16be q.qclass ++
        [192, 12] ++ u16be 1 ++ u16be 1 ++ u32be 300 ++ u16be 4 ++ ipBytes ip)) ∧
    (DnsHeader.mk header.id 33152 1 1 0 0).toBytes.length = 12 := by
  refine ⟨?_, rfl⟩
  simp [create_response, hh, hq, ht, hr]

theorem C1_hit_response_witness :
    create_response ([0, 42] ++ List.replicate 10 0 ++ [1, 97, 0, 0, 1, 0, 1]) 2 512
        (fun n => if n = [97] then some (93, 184, 216, 34) else none) =
      some (some ((DnsHeader.mk 42 33152 1 1 0 0).toBytes ++
        encode_domain_name [97] ++ u16be 1 ++ u16be 1 ++
        [192, 12] ++ u16be 1 ++ u16be 1 ++ u32be 300 ++ u16be 4 ++
        ipBytes (93, 184, 216, 34))) ∧
    (DnsHeader.mk 42 33152 1 1 0 0).toBytes.length = 12 :=
  C1_hit_response ([0, 42] ++ List.replicate 10 0 ++ [1, 97, 0, 0, 1, 0, 1]) 2 512
    (fun n => if n = [97] then some (93, 184, 216, 34) else none)
    (DnsHeader.mk 42 0 0 0 0 0) (DnsQuestion.mk [97] 1 1) 19 (93, 184, 216, 34)
    (by decide) (by decide) rfl (by decide)

/-- C2: when the header parses, the question parses at offset 12 with
qtype = 1, and the decoded name is not in the lookup table, the response is:
a 12-byte header with the query's id, the NXDOMAIN flags 0x8183, counts
(1, 0, 0, 0); then the re-encoded question name, qtype and qclass, and
nothing after it (no answer section). -/
theorem C2_miss_response (buffer : List Nat) (fuel qlen : Nat)
    (records : List Nat → Option (Nat × Nat × Nat × Nat)) (header : DnsHeader)
    (q : DnsQuestion) (rest : Nat)
    (hh : DnsHeader.parse buffer = some header)
    (hq : parse_question buffer fuel 12 = some (some (q, rest)))
    (ht : q.qtype = 1)
    (hr : records q.name = none) :
    create_response buffer fuel qlen records =
      some (some ((DnsHeader.mk header.id 33155 1 0 0 0).toBytes ++
        encode_domain_name q.name ++ u16be q.qtype ++ u16be q.qclass)) ∧
    (DnsHeader.mk header.id 33155 1 0 0 0).toBytes.length = 12 := by
  refine ⟨?_, rfl⟩
  simp [create_response, hh, hq, ht, hr]

theorem C2_miss_response_witness :
    create_response ([0, 42] ++ List.replicate 10 0 ++ [1, 98, 0, 0, 1, 0, 1]) 2 512
        (fun n => if n = [97] then some (93, 184, 216, 34) else none) =
      some (some ((DnsHeader.mk 42 33155 1 0 0 0).toBytes ++
        encode_domain_name [98] ++ u16be 1 ++ u16be 1)) ∧
    (DnsHeader.mk 42 33155 1 0 0 0).toBytes.length = 12 :=
  C2_miss_response ([0, 42] ++ List.replicate 10 0 ++ [1, 98, 0, 0, 1, 0, 1]) 2 512
    (fun n => if n = [97] then some (93, 184, 216, 34) else none)
    (DnsHeader.mk 42 0 0 0 0 0) (DnsQuestion.mk [98] 1 1) 19
    (by decide) (by decide) rfl (by decide)

set_option maxRecDepth 10000 in
/-- C5 counterexample: the pure-ASCII, null-free name consisting of 192 `a`
bytes is a single dot-separated segment (so removing empty segments leaves it
unchanged), and its encoding has length 194; but its length byte 192 has both
top bits set, so the decoder misreads it as a compression pointer and returns
the empty name with cursor 2 instead of the name with cursor 194 — the claimed
round-trip equation fails at this input. -/
theorem C5_roundtrip_fails_at_192 :
    (List.replicate 192 97).splitOn 46 = [List.replicate 192 97] ∧
    removeEmptySegments (List.replicate 192 97) = List.replicate 192 97 ∧
    (encode_domain_name (List.replicate 192 97)).length = 194 ∧
    parse_domain_name (encode_domain_name (List.replicate 192 97)) 5 0 [] =
      some (some ([], 2)) ∧
    ([] : List Nat) ≠ List.replicate 192 97 := by decide

/-- C5 (amended): for every pure-ASCII name without embedded null bytes whose
dot-separated segments are all shorter than 192 bytes, decoding the encoding
at offset 0 succeeds (for any fuel exceeding the number of non-empty
segments), yields the name with empty segments removed together with the
encoding's length as new offset; and when all segments are non-empty the
decoded name equals the original name. -/
theorem C5_encode_decode_roundtrip (name : List Nat)
    (hascii : ∀ b ∈ name, b ≤ 127) (_hnull : ∀ b ∈ name, b ≠ 0)
    (hlen : ∀ part ∈ name.splitOn 46, part.length < 192)
    (fuel : Nat)
    (hfuel : ((name.splitOn 46).filter (fun p => !p.isEmpty)).length < fuel) :
    parse_domain_name (encode_domain_name name) fuel 0 [] =
      some (some (removeEmptySegments name, (encode_domain_name name).length)) ∧
    ((∀ part ∈ name.splitOn 46, ¬part.isEmpty) → removeEmptySegments name = name) := by
  constructor
  · have hside : ∀ p ∈ (name.splitOn 46).filter (fun q => !q.isEmpty),
        p ≠ [] ∧ p.length < 192 ∧ ∀ b ∈ p, b ≤ 127 := by
      intro p hp
      have hmem := List.mem_of_mem_filter hp
      have hne : p ≠ [] := by
        have hq := List.of_mem_filter hp
        simpa [List.isEmpty_iff] using hq
      exact ⟨hne, hlen p hmem, fun b hb => hascii b (mem_of_mem_splitOn hmem hb)⟩
    have h := parse_partsBytes ((name.splitOn 46).filter (fun q => !q.isEmpty)) fuel [] []
      hside hfuel
    simp only [List.nil_append, List.length_nil, Nat.zero_add] at h
    rw [encode_domain_name_eq, h]
    rw [removeEmptySegments]
    have hl : (partsBytes ((name.splitOn 46).filter (fun q => !q.isEmpty)) ++ [0]).length
        = (partsBytes ((name.splitOn 46).filter (fun q => !q.isEmpty))).length + 1 := by
      simp
    rw [hl]
  · intro hne
    rw [removeEmptySegments]
    have hfull : (name.splitOn 46).filter (fun p => !p.isEmpty) = name.splitOn 46 :=
      List.filter_eq_self.mpr (fun p hp => by simpa using hne p hp)
    rw [hfull, dotJoin]
    apply List.intercalate_splitOn

theorem C5_encode_decode_roundtrip_witness :
    (parse_domain_name (encode_domain_name [97, 98, 46, 99]) 3 0 [] =
      some (some (removeEmptySegments [97, 98, 46, 99],
        (encode_domain_name [97, 98, 46, 99]).length)) ∧
    ((∀ part ∈ ([97, 98, 46, 99] : List Nat).splitOn 46, ¬part.isEmpty) →
      removeEmptySegments [97, 98, 46, 99] = [97, 98, 46, 99])) :=
  C5_encode_decode_roundtrip [97, 98, 46, 99] (by decide) (by decide) (by decide) 3 (by decide)
